import Mathlib

/-!
Verification of the cosmic-ray (CR) detection/repair engine and the spatial
PSF fitter of the meas_algorithms library, via a shallow embedding of the
relevant routines of src/CR.cc and src/SpatialModelPsf.cc.

Conventions of the embedding:
* pixel rasters are total functions from coordinates to values; image values
  and variances are rationals (or reals where the source takes square roots);
* mask planes are natural-number bitfields, with the C++ bitwise operators
  `|` and `&` embedded as `|||` and `&&&`;
* a C++ routine that can fail (throw) returns an `Option`;
* C++ `float`/`double` to `int` conversion truncates toward zero, embedded
  as `truncToInt` on rationals.
-/

set_option autoImplicit false

/- ------------------------------------------------------------------ -/
/- Alias tables (CR.cc lines 57-69): union-find over span ids.         -/
/- ------------------------------------------------------------------ -/

/-- One step of the alias chain: `aliases[id]`.  Out-of-range reads return
the id itself (the source never performs them on valid inputs). -/
def aliasStep (aliases : List ℕ) (id : ℕ) : ℕ := aliases.getD id id

/-- The while-loop of `resolve_alias` with explicit fuel: follow the chain
until `id == aliases[id]`, or the fuel runs out. -/
def resolveAliasFuel (aliases : List ℕ) : ℕ → ℕ → ℕ
  | 0, id => id
  | fuel + 1, id =>
    if aliasStep aliases id = id then id
    else resolveAliasFuel aliases fuel (aliasStep aliases id)

/-- `resolve_alias` of CR.cc: follow a chain of aliases to its final value.
On a table whose chains terminate, `aliases.length` steps always suffice
(proved below via a pigeonhole argument), so that fuel computes the exact
result of the source while-loop. -/
def resolve_alias (aliases : List ℕ) (id : ℕ) : ℕ :=
  resolveAliasFuel aliases aliases.length id

/- ------------------------------------------------------------------ -/
/- The closed-form amplitude fit (SpatialModelPsf.cc lines 298-355).   -/
/- ------------------------------------------------------------------ -/

/-- One (model, data, variance) pixel triple seen by `fitKernel`. -/
structure FitPixel where
  m : ℚ
  d : ℚ
  var : ℚ
deriving DecidableEq, Repr

/-- The body of the accumulation loop of `fitKernel` (lines 308-321): a
pixel with `var == 0` is skipped (zero variance is read as infinite
variance); otherwise `m*m/var`, `m*d/var` and `d*d/var` are accumulated. -/
def fitKernelStep (acc : ℚ × ℚ × ℚ) (p : FitPixel) : ℚ × ℚ × ℚ :=
  if p.var ≠ 0 then
    (acc.1 + p.m * p.m / p.var, acc.2.1 + p.m * p.d / p.var, acc.2.2 + p.d * p.d / p.var)
  else acc

/-- The accumulation loop of `fitKernel`: running sums
`(sumMM, sumMD, sumDD)` over all pixels. -/
def fitKernelSums (pixels : List FitPixel) : ℚ × ℚ × ℚ :=
  pixels.foldl fitKernelStep (0, 0, 0)

/-- `fitKernel` of SpatialModelPsf.cc: returns `(chi2, amp)`; `none` embeds
the `RangeErrorException` thrown when `sumMM == 0` (line 324-326). -/
def fitKernel (pixels : List FitPixel) : Option (ℚ × ℚ) :=
  let s := fitKernelSums pixels
  if s.1 = 0 then none
  else
    let amp := s.2.1 / s.1
    some (s.2.2 - 2 * amp * s.2.1 + amp * amp * s.1, amp)

/- ------------------------------------------------------------------ -/
/- The linear spatial fit (SpatialModelPsf.cc lines 758-816).          -/
/- ------------------------------------------------------------------ -/

/-- The chi-squared sweep of `evalChi2Visitor` (lines 363-424): sum the
`fitKernel` chi-squared over all candidates; a range error from any
candidate is rethrown (`none`). -/
def evalChi2Total (cands : List (List FitPixel)) : Option ℚ :=
  cands.foldl
    (fun acc c =>
      match acc, fitKernel c with
      | some s, some r => some (s + r.1)
      | _, _ => none)
    (some 0)

/-- The linear branch of `fitSpatialKernelFromPsfCandidates` (lines 772-816):
assemble A and b (abstracted as inputs), solve `A x = b` with the LDLT
solver (abstracted as the `solve` argument; its outcome is never checked),
install the solution into the kernel, and recompute chi-squared over all
candidates (`cands` maps the installed coefficient vector to the per-pixel
data the chi-squared visitor sees).  Line 815 returns `make_pair(true, chi2)`. -/
def fitSpatialKernelLinearModel (solve : List (List ℚ) → List ℚ → List ℚ)
    (A : List (List ℚ)) (b : List ℚ)
    (cands : List ℚ → List (List FitPixel)) : Option (Bool × ℚ) :=
  let x := solve A b
  (evalChi2Total (cands x)).map (fun chi2 => (true, chi2))

/-- `fitSpatialKernelFromPsfCandidates(kernel, cells, doNonLinearFit, ...)`
(lines 758-816): dispatch to the nonlinear fitter (whose result is abstracted
as `nonlinear`) or to the linear solve. -/
def fitSpatialKernelFromPsfCandidatesModel (doNonLinearFit : Bool)
    (nonlinear : Option (Bool × ℚ))
    (solve : List (List ℚ) → List ℚ → List ℚ)
    (A : List (List ℚ)) (b : List ℚ)
    (cands : List ℚ → List (List FitPixel)) : Option (Bool × ℚ) :=
  if doNonLinearFit then nonlinear
  else fitSpatialKernelLinearModel solve A b cands

/- ------------------------------------------------------------------ -/
/- Initial spatial coefficients (SpatialModelPsf.cc lines 258-274).    -/
/- ------------------------------------------------------------------ -/

/-- Number of coefficients of the collaborator class
`afw::math::PolynomialFunction2(order)`: a full 2-D polynomial of the given
order has (order+1)(order+2)/2 coefficients. -/
def polynomialFunction2NCoeffs (spatialOrder : ℕ) : ℕ :=
  (spatialOrder + 1) * (spatialOrder + 2) / 2

/-- A freshly constructed `PolynomialFunction2(spatialOrder)` has all
coefficients zero (collaborator contract, line 266). -/
def polynomialFunction2Init (spatialOrder : ℕ) : List ℚ :=
  List.replicate (polynomialFunction2NCoeffs spatialOrder) 0

/-- The kernel-assembly loop of `createKernelFromPsfCandidates` (lines
261-269): for EACH of the `ncomp` components a fresh polynomial is created
and `setParameter(0, 1.0)` is called on it. -/
def initialSpatialFunctions (ncomp spatialOrder : ℕ) : List (List ℚ) :=
  List.replicate ncomp ((polynomialFunction2Init spatialOrder).set 0 1)

/- ------------------------------------------------------------------ -/
/- Eigen-image background subtraction (SpatialModelPsf.cc 219-253).    -/
/- ------------------------------------------------------------------ -/

/-- `bkg_border`, clamped to the image size (lines 219-228). -/
def bkgBorder (w h : ℕ) : ℕ := min 2 (min w h)

/-- The border sum actually accumulated by the source (lines 230-249).
`im c r` is the pixel at column `c` of row `r`.  The first double loop reads
the full bottom rows `r` and top rows `h-1-r` for `r < b`.  The second loop
(one per middle row `r`) advances only the left pointer, reading columns
`0..b-1` of row `r`, while the right pointer stays at the START of row
`w-1-r` (`im.row_begin(im.getWidth() - i - 1)` is never incremented), so it
re-reads pixel `(0, w-1-r)` b times. -/
def eigenBorderCodeTotal (im : ℕ → ℕ → ℚ) (w h b : ℕ) : ℚ :=
  (∑ r ∈ Finset.range b, ∑ c ∈ Finset.range w, (im c r + im c (h - 1 - r))) +
    ∑ r ∈ Finset.Ico b (h - b), ∑ c ∈ Finset.range b, (im c r + im 0 (w - 1 - r))

/-- The value the source subtracts from every pixel of a kept eigen-image
(line 250): the accumulated sum divided by twice
`b*width + b*(height - 2*b)` (the divisor is computed in ints). -/
def eigenBorderCodeValue (im : ℕ → ℕ → ℚ) (w h b : ℕ) : ℚ :=
  eigenBorderCodeTotal im w h b / ((2 * (b * w + b * (h - 2 * b)) : ℤ) : ℚ)

/-- Modelled from the spec: the arithmetic mean of the outer border frame of
width `b` (bottom and top rows of that width, plus left and right columns of
that width between them).  This is the value the specification says is
subtracted; it is compared against `eigenBorderCodeValue`. -/
def eigenBorderSpecMean (im : ℕ → ℕ → ℚ) (w h b : ℕ) : ℚ :=
  ((∑ r ∈ Finset.range b, ∑ c ∈ Finset.range w, (im c r + im c (h - 1 - r))) +
      ∑ r ∈ Finset.Ico b (h - b), ∑ c ∈ Finset.range b, (im c r + im (w - 1 - c) r)) /
    ((2 * (b * w + b * (h - 2 * b)) : ℤ) : ℚ)

/-- Concrete 5x5 eigen-image: zero everywhere except the border pixel at
column 3, row 2, which holds 24. -/
def eigenImageC6 : ℕ → ℕ → ℚ := fun c r => if c = 3 ∧ r = 2 then 24 else 0

/- ------------------------------------------------------------------ -/
/- CR repair: the contamination test of RemoveCR (CR.cc 637-733).      -/
/- ------------------------------------------------------------------ -/

/-- A C++ bitwise-or used in boolean context: `(mask | badMask)` is true
iff it is nonzero. -/
def cppCondOr (m badMask : ℕ) : Bool := decide ((m ||| badMask) ≠ 0)

/-- The W-E estimate skip test (lines 650-651): the four support masks at
offsets (-2,0), (-1,0), (1,0), (2,0), each tested as `(mask | badMask)`. -/
def weEstimateContaminated (mask : ℤ → ℤ → ℕ) (badMask : ℕ) : Bool :=
  cppCondOr (mask (-2) 0) badMask || cppCondOr (mask (-1) 0) badMask ||
    cppCondOr (mask 1 0) badMask || cppCondOr (mask 2 0) badMask

/-- The N-S estimate skip test (lines 672-673). -/
def nsEstimateContaminated (mask : ℤ → ℤ → ℕ) (badMask : ℕ) : Bool :=
  cppCondOr (mask 0 (-2)) badMask || cppCondOr (mask 0 (-1)) badMask ||
    cppCondOr (mask 0 1) badMask || cppCondOr (mask 0 2) badMask

/-- The SW-NE estimate skip test (lines 694-695). -/
def swneEstimateContaminated (mask : ℤ → ℤ → ℕ) (badMask : ℕ) : Bool :=
  cppCondOr (mask (-2) (-2)) badMask || cppCondOr (mask (-1) (-1)) badMask ||
    cppCondOr (mask 1 1) badMask || cppCondOr (mask 2 2) badMask

/-- The SE-NW estimate skip test (lines 716-717). -/
def senwEstimateContaminated (mask : ℤ → ℤ → ℕ) (badMask : ℕ) : Bool :=
  cppCondOr (mask 2 (-2)) badMask || cppCondOr (mask 1 (-1)) badMask ||
    cppCondOr (mask (-1) 1) badMask || cppCondOr (mask (-2) 2) badMask

/- ------------------------------------------------------------------ -/
/- Mask writes of findCosmicRays, keep == false (CR.cc 540-567).       -/
/- ------------------------------------------------------------------ -/

/-- A row span of a Footprint: row `y`, inclusive column range `x0..x1`. -/
structure CRSpan where
  y : ℤ
  x0 : ℤ
  x1 : ℤ
deriving DecidableEq, Repr

/-- Membership of a pixel in a span. -/
def spanContains (s : CRSpan) (p : ℤ × ℤ) : Bool :=
  decide (p.2 = s.y ∧ s.x0 ≤ p.1 ∧ p.1 ≤ s.x1)

/-- Membership of a pixel in a Footprint (a list of row spans). -/
def footprintContains (fp : List CRSpan) (p : ℤ × ℤ) : Bool :=
  fp.any (spanContains · p)

/-- Collaborator contract (`afw::detection::setMaskFromFootprintList`): OR
the given bit plane into the mask of every pixel of every footprint. -/
def setMaskFromFootprintList (mask : ℤ × ℤ → ℕ) (fps : List (List CRSpan))
    (bit : ℕ) : ℤ × ℤ → ℕ :=
  fun p => if fps.any (footprintContains · p) then mask p ||| bit else mask p

/-- The mask effect of `removeCR` (lines 789-832): the interpolation functor
writes only image values; the only mask write sets `saturBit` on the grown
footprints that touch saturated pixels (line 822).  `saturSets` collects
those footprints. -/
def removeCRMaskEffect (mask : ℤ × ℤ → ℕ) (saturSets : List (List CRSpan))
    (saturBit : ℕ) : ℤ × ℤ → ℕ :=
  setMaskFromFootprintList mask saturSets saturBit

/-- The complete mask pipeline of `findCosmicRays` with `keep == false`:
line 543 ORs `crBit` over all CRs, line 561 runs `removeCR` (image writes
plus possible `saturBit` writes), and line 566 — despite the comment saying
the interp bits are set — ORs `crBit` over all CRs a second time. -/
def findCosmicRaysFinalMask (mask0 : ℤ × ℤ → ℕ) (CRs saturSets : List (List CRSpan))
    (crBit saturBit : ℕ) : ℤ × ℤ → ℕ :=
  setMaskFromFootprintList
    (removeCRMaskEffect (setMaskFromFootprintList mask0 CRs crBit) saturSets saturBit)
    CRs crBit

/- ------------------------------------------------------------------ -/
/- The iterative-growth loop of findCosmicRays (CR.cc 474-539).        -/
/- ------------------------------------------------------------------ -/

/-- The growth loop with the per-pass work abstracted: `added i` is the total
number of pixels the pass with index `i` adds to the CR footprints (the sum
of `extra.getNpix()` over all CRs in that pass).  `remaining` counts down
from `niteration` (the source loop runs `i` up from 0 while `i != niteration`),
`nextra` is the accumulator declared OUTSIDE the loop at line 474 and never
reset; the loop breaks when it is zero (line 536-538).  Returns the number
of passes executed. -/
def growthPassesRunAux (added : ℕ → ℕ) : ℕ → ℕ → ℕ → ℕ
  | 0, i, _ => i
  | remaining + 1, i, nextra =>
    let nextra2 := nextra + added i
    if nextra2 = 0 then i + 1
    else growthPassesRunAux added remaining (i + 1) nextra2

/-- Number of growth passes executed for a given `niteration`. -/
def growthPassesRun (added : ℕ → ℕ) (niteration : ℕ) : ℕ :=
  growthPassesRunAux added niteration 0 0

/-- A per-pass addition profile: the first pass finds one extra pixel, every
later pass finds none. -/
def exAdded : ℕ → ℕ := fun i => if i = 0 then 1 else 0

/- ------------------------------------------------------------------ -/
/- CRPixel recording and keep == true restoration (CR.cc 81-102,       -/
/- 213-223, 331-332, 551-556).                                         -/
/- ------------------------------------------------------------------ -/

/-- C++ conversion of a floating-point value to `int`: truncation toward
zero (floor for non-negative values, ceiling for negative ones). -/
def truncToInt (q : ℚ) : ℤ := if 0 ≤ q then ⌊q⌋ else ⌈q⌉

/-- A recorded CR-contaminated pixel (CR.cc lines 81-102).  The field `val`
holds the initial value of the pixel, but the constructor parameter `_val`
is declared `int`, so the stored value is the truncation of the pixel value.
`idx` is the running insertion index `_i` (birth order). -/
structure CRPixelRec where
  id : ℤ
  col : ℤ
  row : ℤ
  val : ℤ
  idx : ℕ
deriving DecidableEq, Repr

/-- Construction of a `CRPixel` from a pixel value (lines 85-88): the value
passes through the `int` parameter. -/
def mkCRPixel (col row : ℤ) (v : ℚ) (idx : ℕ) : CRPixelRec :=
  ⟨-1, col, row, truncToInt v, idx⟩

/-- Write one pixel of an image raster. -/
def writePixel (img : ℤ × ℤ → ℚ) (c r : ℤ) (v : ℚ) : ℤ × ℤ → ℚ :=
  fun p => if p = (c, r) then v else img p

/-- Stable insertion into a list sorted by ascending insertion index. -/
def insertByIdx (p : CRPixelRec) : List CRPixelRec → List CRPixelRec
  | [] => [p]
  | q :: rest => if p.idx ≤ q.idx then p :: q :: rest else q :: insertByIdx p rest

/-- Sort recorded pixels into birth order (the `sort` at line 552 with the
`operator<` of lines 91-93 comparing `_i`). -/
def sortByIdx : List CRPixelRec → List CRPixelRec
  | [] => []
  | p :: rest => insertByIdx p (sortByIdx rest)

/-- The `keep == true` restoration (lines 551-556): sort the recorded
CRPixels into birth order (the trailing dummy record is excluded, as the
source sorts `begin()..end()-1` and starts the reverse sweep at
`rbegin()+1`), then write each stored `val` back in REVERSE birth order so
that the first-recorded value wins for duplicated pixels.  The written value
is the stored `int` field converted back to the pixel type. -/
def restoreKeep (crpixels : List CRPixelRec) (img : ℤ × ℤ → ℚ) : ℤ × ℤ → ℚ :=
  ((sortByIdx crpixels).reverse).foldl
    (fun im p => writePixel im p.col p.row ((p.val : ℚ))) img

/-- The detection-time bookkeeping for one CR pixel (lines 331-332 and
213-223): record the ORIGINAL pixel value (through the int constructor
parameter) and overwrite the image with the directional estimate `corr`.
Returns the record and the updated image. -/
def detectRecord (img : ℤ × ℤ → ℚ) (c r : ℤ) (corr : ℚ) (idx : ℕ) :
    CRPixelRec × (ℤ × ℤ → ℚ) :=
  (mkCRPixel c r (img (c, r)) idx, writePixel img c r corr)

/-- The image of scenario S4: zero background with a single hot pixel at
(3,3) whose value has a fractional part. -/
def s4Img : ℤ × ℤ → ℚ := fun p => if p = (3, 3) then 2001 / 2 else 0

/- ------------------------------------------------------------------ -/
/- The per-pixel CR test (CR.cc 114-187 and 572-614).                  -/
/- ------------------------------------------------------------------ -/

open scoped Classical in
/-- `condition_3` of CR.cc (lines 576-614): test the four directions in the
fixed order NS, WE, SW-NE, NW-SE; the first direction whose threshold test
fires sets the estimate to the neighbor mean of that direction.  All the
sky-subtracted means and the standard deviations are passed in by the
caller.  Returns the estimate, or `none` when no direction fires. -/
noncomputable def condition_3 (peak mean_ns mean_we mean_swne mean_nwse : ℝ)
    (dpeak dmean_ns dmean_we dmean_swne dmean_nwse : ℝ)
    (thres_h thres_v thres_d e_per_dn cond3_fac : ℝ) : Option ℝ :=
  if thres_v * (peak - cond3_fac * dpeak) > mean_ns + cond3_fac * dmean_ns then some mean_ns
  else if thres_h * (peak - cond3_fac * dpeak) > mean_we + cond3_fac * dmean_we then some mean_we
  else if thres_d * (peak - cond3_fac * dpeak) > mean_swne + cond3_fac * dmean_swne then
    some mean_swne
  else if thres_d * (peak - cond3_fac * dpeak) > mean_nwse + cond3_fac * dmean_nwse then
    some mean_nwse
  else none

open scoped Classical in
/-- The condition-3 stage of `is_cr_pixel` (lines 164-186): compute the
standard deviations of the pixel and of the four two-sided neighbor means
from the variance plane, call `condition_3` on the sky-subtracted values,
and on success add the background back onto the estimate
(`*corr += bkgd`). -/
noncomputable def crCond3Step (img var : ℤ → ℤ → ℝ)
    (thres_h thres_v thres_d bkgd e_per_dn cond3_fac : ℝ) : Option ℝ :=
  let v00 := img 0 0
  let mean_we := (img (-1) 0 + img 1 0) / 2
  let mean_ns := (img 0 1 + img 0 (-1)) / 2
  let mean_swne := (img (-1) (-1) + img 1 1) / 2
  let mean_nwse := (img (-1) 1 + img 1 (-1)) / 2
  let dv_00 := Real.sqrt (var 0 0)
  let dmean_we := Real.sqrt (var (-1) 0 + var 1 0) / 2
  let dmean_ns := Real.sqrt (var 0 1 + var 0 (-1)) / 2
  let dmean_swne := Real.sqrt (var (-1) (-1) + var 1 1) / 2
  let dmean_nwse := Real.sqrt (var (-1) 1 + var 1 (-1)) / 2
  match condition_3 (v00 - bkgd) (mean_ns - bkgd) (mean_we - bkgd) (mean_swne - bkgd)
      (mean_nwse - bkgd) dv_00 dmean_ns dmean_we dmean_swne dmean_nwse
      thres_h thres_v thres_d e_per_dn cond3_fac with
  | none => none
  | some est => some (est + bkgd)

open scoped Classical in
/-- `is_cr_pixel` of CR.cc (lines 120-187).  `img dx dy` and `var dx dy`
give the image and variance planes at offsets from the pixel under test
(the locator).  `min_sigma` is declared `int` in the source.  Returns the
corrected value `corr` when the pixel is classified as a CR, else `none`.
A negative pixel is rejected outright (line 135).  Condition #2: with
`min_sigma < 0` the pixel is rejected when `v < -min_sigma`; otherwise it
is rejected when it lies below EVERY one of the four neighbor means plus
`min_sigma * sqrt(variance)` (lines 150-163).  Condition #3 then decides,
via `crCond3Step`. -/
noncomputable def is_cr_pixel (img var : ℤ → ℤ → ℝ) (min_sigma : ℤ)
    (thres_h thres_v thres_d bkgd e_per_dn cond3_fac : ℝ) : Option ℝ :=
  let v00 := img 0 0
  if v00 < 0 then none
  else
    let mean_we := (img (-1) 0 + img 1 0) / 2
    let mean_ns := (img 0 1 + img 0 (-1)) / 2
    let mean_swne := (img (-1) (-1) + img 1 1) / 2
    let mean_nwse := (img (-1) 1 + img 1 (-1)) / 2
    if min_sigma < 0 then
      if v00 < -(min_sigma : ℝ) then none
      else crCond3Step img var thres_h thres_v thres_d bkgd e_per_dn cond3_fac
    else
      let thres_sky_sigma := (min_sigma : ℝ) * Real.sqrt (var 0 0)
      if v00 < mean_ns + thres_sky_sigma ∧ v00 < mean_we + thres_sky_sigma ∧
          v00 < mean_swne + thres_sky_sigma ∧ v00 < mean_nwse + thres_sky_sigma then none
      else crCond3Step img var thres_h thres_v thres_d bkgd e_per_dn cond3_fac

/-- The neighborhood of the C1 analysis: the pixel under test holds 10, the
N and S neighbors hold 0, every other neighbor holds 20. -/
noncomputable def ex1Img : ℤ → ℤ → ℝ := fun dx dy =>
  if dx = 0 ∧ dy = 0 then 10 else if dx = 0 then 0 else 20

/-- Unit variance everywhere for the C1 analysis. -/
noncomputable def ex1Var : ℤ → ℤ → ℝ := fun _ _ => 1

/- ================================================================== -/
/- Theorems.                                                           -/
/- ================================================================== -/

/- Helper lemmas for the amplitude fit. -/

theorem fitKernel_foldl_filter (pixels : List FitPixel) (acc : ℚ × ℚ × ℚ) :
    pixels.foldl fitKernelStep acc =
      (pixels.filter fun p => p.var ≠ 0).foldl fitKernelStep acc := by
  induction pixels generalizing acc with
  | nil => rfl
  | cons p rest ih =>
    by_cases hp : p.var ≠ 0
    · simp [List.filter_cons, hp, ih]
    · simp only [ne_eq, not_not] at hp
      simp [List.filter_cons, hp, ih, fitKernelStep]

theorem fitKernel_foldl_fst (pixels : List FitPixel) (acc : ℚ × ℚ × ℚ) :
    (pixels.foldl fitKernelStep acc).1 =
      acc.1 + ((pixels.filter fun p => p.var ≠ 0).map fun p => p.m * p.m / p.var).sum := by
  induction pixels generalizing acc with
  | nil => simp
  | cons p rest ih =>
    by_cases hp : p.var ≠ 0
    · simp [List.filter_cons, hp, ih, fitKernelStep]
      ring
    · simp only [ne_eq, not_not] at hp
      simp [List.filter_cons, hp, ih, fitKernelStep]

/-- C8: `fitKernel` excludes every pixel with variance exactly 0 from its
accumulated sums (its result over any pixel list equals its result over the
list with the zero-variance pixels dropped), and it reports the range error
(`none`) exactly when the accumulated sum of `model^2 / variance` over the
remaining pixels is zero. -/
theorem fitKernel_zero_variance_policy (pixels : List FitPixel) :
    fitKernel pixels = fitKernel (pixels.filter fun p => p.var ≠ 0) ∧
    (fitKernel pixels = none ↔
      ((pixels.filter fun p => p.var ≠ 0).map fun p => p.m * p.m / p.var).sum = 0) := by
  have hsums : fitKernelSums pixels = fitKernelSums (pixels.filter fun p => p.var ≠ 0) :=
    fitKernel_foldl_filter pixels (0, 0, 0)
  have hfst : (fitKernelSums pixels).1 =
      ((pixels.filter fun p => p.var ≠ 0).map fun p => p.m * p.m / p.var).sum := by
    simpa using fitKernel_foldl_fst pixels (0, 0, 0)
  constructor
  · unfold fitKernel
    rw [hsums]
  · rw [← hfst]
    by_cases h : (fitKernelSums pixels).1 = 0 <;> simp [fitKernel, h]

/-- C10: whenever the linear branch of `fitSpatialKernelFromPsfCandidates`
(`doNonLinearFit == false`) returns normally, the returned validity flag is
`true`, for every possible outcome of the LDLT solve. -/
theorem fitSpatialKernel_linear_always_valid
    (nonlinear : Option (Bool × ℚ)) (solve : List (List ℚ) → List ℚ → List ℚ)
    (A : List (List ℚ)) (b : List ℚ) (cands : List ℚ → List (List FitPixel))
    (r : Bool × ℚ)
    (h : fitSpatialKernelFromPsfCandidatesModel false nonlinear solve A b cands = some r) :
    r.1 = true := by
  simp only [fitSpatialKernelFromPsfCandidatesModel, Bool.false_eq_true, if_false,
    fitSpatialKernelLinearModel] at h
  cases hc : evalChi2Total (cands (solve A b)) with
  | none => rw [hc] at h; exact Option.noConfusion h
  | some chi2 =>
    rw [hc] at h
    simp only [Option.map_some', Option.some.injEq] at h
    rw [← h]

theorem fitSpatialKernel_linear_eval :
    fitSpatialKernelFromPsfCandidatesModel false none (fun _ _ => []) [] []
        (fun _ => [[⟨1, 1, 1⟩]]) = some (true, 0) := by
  norm_num [fitSpatialKernelFromPsfCandidatesModel, fitSpatialKernelLinearModel,
    evalChi2Total, fitKernel, fitKernelSums, fitKernelStep]

theorem fitSpatialKernel_linear_always_valid_witness :
    fitSpatialKernelFromPsfCandidatesModel false none (fun _ _ => []) [] []
        (fun _ => [[⟨1, 1, 1⟩]]) = some (true, 0) ∧ (true, (0 : ℚ)).1 = true :=
  ⟨fitSpatialKernel_linear_eval,
   fitSpatialKernel_linear_always_valid none (fun _ _ => []) [] []
     (fun _ => [[⟨1, 1, 1⟩]]) (true, 0) fitSpatialKernel_linear_eval⟩

/- Initial spatial coefficients (C7). -/

theorem getD_replicate_zero (n i : ℕ) : (List.replicate n (0 : ℚ)).getD i 0 = 0 := by
  induction n generalizing i with
  | zero => simp
  | succ m ih =>
    cases i with
    | zero => simp [List.replicate_succ]
    | succ j => simpa [List.replicate_succ] using ih j

/-- C7 counterexample: with two kept eigen-components the constant term of
spatial function #1 is 1.0, not 0 as the claim states. -/
theorem initial_coeffs_counterexample :
    ¬ ((initialSpatialFunctions 2 0).getD 1 []).getD 0 0 = 0 := by decide

/-- C7 as amended: EVERY spatial function of the assembled kernel has
constant term 1.0, and all its non-constant polynomial coefficients are 0. -/
theorem initial_coeffs_amended (ncomp spatialOrder c s : ℕ) (hc : c < ncomp)
    (hs : s < polynomialFunction2NCoeffs spatialOrder) :
    ((initialSpatialFunctions ncomp spatialOrder).getD c []).getD s 0 =
      if s = 0 then (1 : ℚ) else 0 := by
  have houter : (initialSpatialFunctions ncomp spatialOrder).getD c [] =
      (polynomialFunction2Init spatialOrder).set 0 1 := by
    unfold initialSpatialFunctions
    rw [List.getD_eq_getElem?_getD, List.getElem?_replicate, if_pos hc]
    rfl
  rw [houter]
  unfold polynomialFunction2Init
  obtain ⟨k, hk⟩ : ∃ k, polynomialFunction2NCoeffs spatialOrder = k + 1 :=
    ⟨polynomialFunction2NCoeffs spatialOrder - 1, by omega⟩
  rw [hk, List.replicate_succ, List.set_cons_zero]
  cases s with
  | zero => rfl
  | succ j =>
    simp only [List.getD_cons_succ, if_neg (Nat.succ_ne_zero j)]
    exact getD_replicate_zero k j

theorem initial_coeffs_amended_witness :
    1 < 2 ∧ 2 < polynomialFunction2NCoeffs 1 ∧
      ((initialSpatialFunctions 2 1).getD 1 []).getD 2 0 = if (2 : ℕ) = 0 then (1 : ℚ) else 0 :=
  ⟨by decide, by decide, initial_coeffs_amended 2 1 1 2 (by decide) (by decide)⟩

/- The iterative-growth loop (C4). -/

/-- C4 counterexample: with `niteration = 3` and a run whose first pass adds
one pixel and whose later passes add none, pass 1 adds zero pixels and yet
pass 2 is still executed (all three passes run), because the `nextra`
accumulator is never reset between passes. -/
theorem growth_loop_counterexample :
    exAdded 1 = 0 ∧ growthPassesRun exAdded 3 = 3 := by decide

/-- C4 as amended: the growth phase stops early only when the CUMULATIVE
number of added pixels is zero; since that accumulator is never reset, the
loop stops after pass 0 when that pass adds nothing, and otherwise all
`niteration` passes run. -/
theorem growthPassesRun_eq (added : ℕ → ℕ) (niteration : ℕ) :
    growthPassesRun added niteration =
      if niteration = 0 then 0 else if added 0 = 0 then 1 else niteration := by
  have aux : ∀ (remaining i nextra : ℕ), nextra ≠ 0 →
      growthPassesRunAux added remaining i nextra = i + remaining := by
    intro remaining
    induction remaining with
    | zero => intro i nextra _; rfl
    | succ rem ih =>
      intro i nextra hn
      have h2 : nextra + added i ≠ 0 := by omega
      simp only [growthPassesRunAux, h2, if_false]
      rw [ih (i + 1) _ h2]
      omega
  cases niteration with
  | zero => rfl
  | succ m =>
    by_cases h0 : added 0 = 0
    · simp [growthPassesRun, growthPassesRunAux, h0]
    · have hne : 0 + added 0 ≠ 0 := by omega
      simp only [growthPassesRun, growthPassesRunAux, hne, if_false,
        Nat.succ_ne_zero, h0]
      rw [aux m 1 _ hne]
      omega

/- The CR repair contamination test (C2). -/

theorem estimate_contaminated_of_badMask (mask : ℤ → ℤ → ℕ) (badMask : ℕ)
    (h : badMask ≠ 0) :
    weEstimateContaminated mask badMask = true ∧
    nsEstimateContaminated mask badMask = true ∧
    swneEstimateContaminated mask badMask = true ∧
    senwEstimateContaminated mask badMask = true := by
  have hone : ∀ m : ℕ, cppCondOr m badMask = true := by
    intro m
    simp only [cppCondOr, ne_eq, decide_eq_true_eq]
    intro hz
    obtain ⟨i, hi, -⟩ := Nat.exists_most_significant_bit h
    have h2 := congrArg (fun x => x.testBit i) hz
    simp [Nat.testBit_lor, hi] at h2
  simp [weEstimateContaminated, nsEstimateContaminated, swneEstimateContaminated,
    senwEstimateContaminated, hone]

/-- C2: the repair step treats EVERY directional estimate as contaminated,
whatever the support masks hold, because the test reads `(mask | badMask)`
(bitwise or, always nonzero) where `(mask & badMask)` was intended.  Here
the four support pixels of each direction carry no bad bit at all
(`mask = 0`, so `mask &&& badMask = 0`), the bad-pixel mask is the nonzero
`BAD` plane, and all four estimates are nevertheless skipped. -/
theorem removeCR_skips_all_estimates :
    ((0 : ℕ) &&& 1 = 0) ∧
    weEstimateContaminated (fun _ _ => 0) 1 = true ∧
    nsEstimateContaminated (fun _ _ => 0) 1 = true ∧
    swneEstimateContaminated (fun _ _ => 0) 1 = true ∧
    senwEstimateContaminated (fun _ _ => 0) 1 = true := by decide

/- Mask writes of findCosmicRays with keep == false (C3). -/

theorem finalMask_testBit (mask0 : ℤ × ℤ → ℕ) (CRs saturSets : List (List CRSpan))
    (crBit saturBit : ℕ) (p : ℤ × ℤ) (i : ℕ)
    (hcr : crBit.testBit i = false) (hsat : saturBit.testBit i = false) :
    (findCosmicRaysFinalMask mask0 CRs saturSets crBit saturBit p).testBit i =
      (mask0 p).testBit i := by
  unfold findCosmicRaysFinalMask removeCRMaskEffect setMaskFromFootprintList
  split <;> split <;>
    simp [Nat.testBit_lor, hcr, hsat]

/-- C3: no write of `findCosmicRays` with `keep == false` ever sets the
`INTRP` bit: line 566, which according to its comment should set the interp
bits for the interpolated pixels, passes `crBit` again.  In the S1 setting
(single CR footprint at (3,3), initial mask clear, `CR` plane bit 1,
`INTRP` plane bit 2, `SAT` plane bit 3) the final mask at the interpolated
pixel (3,3) has the CR bit set but the INTRP bit still clear. -/
theorem findCosmicRays_no_intrp :
    (findCosmicRaysFinalMask (fun _ => 0) [[⟨3, 3, 3⟩]] [] 2 8 (3, 3)) &&& 4 = 0 ∧
    (findCosmicRaysFinalMask (fun _ => 0) [[⟨3, 3, 3⟩]] [] 2 8 (3, 3)) &&& 2 = 2 := by decide

/- CRPixel truncation under keep == true (C5). -/

/-- C5: the `keep == true` path does not restore the image to its pre-call
state when a CR pixel value has a fractional part.  The original value
1000.5 at the detected pixel (3,3) is recorded through the `int`
constructor parameter of `CRPixel` and restored as 1000. -/
theorem keep_restore_truncates :
    restoreKeep [(detectRecord s4Img 3 3 0 1).1] (detectRecord s4Img 3 3 0 1).2 (3, 3) = 1000 ∧
    s4Img (3, 3) = 2001 / 2 ∧ (1000 : ℚ) ≠ 2001 / 2 := by
  refine ⟨?_, by norm_num [s4Img], by norm_num⟩
  norm_num [restoreKeep, sortByIdx, insertByIdx, detectRecord, mkCRPixel, truncToInt,
    writePixel, s4Img]

/- Eigen-image border subtraction (C6). -/

/-- C6: on a 5x5 eigen-image that is zero except for the border pixel at
column 3, row 2 (value 24), the source subtracts 0 from the image while the
mean of the outer border frame of width `bkg_border = min(2,5,5) = 2` is 1:
the subtracted value is not the border mean. -/
theorem eigen_border_mismatch :
    eigenBorderCodeValue eigenImageC6 5 5 (bkgBorder 5 5) = 0 ∧
    eigenBorderSpecMean eigenImageC6 5 5 (bkgBorder 5 5) = 1 := by
  constructor <;>
  · norm_num [eigenBorderCodeValue, eigenBorderCodeTotal, eigenBorderSpecMean,
      eigenImageC6, bkgBorder, Finset.sum_Ico_eq_sum_range, Finset.sum_range_succ]

/- Alias resolution (C9). -/

theorem resolveAliasFuel_of_fix {aliases : List ℕ} {id : ℕ}
    (h : aliasStep aliases id = id) :
    ∀ fuel, resolveAliasFuel aliases fuel id = id
  | 0 => rfl
  | fuel + 1 => by simp [resolveAliasFuel, h]

theorem resolveAliasFuel_isFix {aliases : List ℕ} :
    ∀ (fuel k id : ℕ), k ≤ fuel →
      aliasStep aliases ((aliasStep aliases)^[k] id) = (aliasStep aliases)^[k] id →
      aliasStep aliases (resolveAliasFuel aliases fuel id) =
        resolveAliasFuel aliases fuel id := by
  intro fuel
  induction fuel with
  | zero =>
    intro k id hk hfix
    obtain rfl : k = 0 := Nat.le_zero.mp hk
    simpa using hfix
  | succ f ih =>
    intro k id hk hfix
    by_cases hid : aliasStep aliases id = id
    · simp [resolveAliasFuel, hid]
    · cases k with
      | zero =>
        simp only [Function.iterate_zero, id_eq] at hfix
        exact absurd hfix hid
      | succ k2 =>
        rw [Function.iterate_succ_apply] at hfix
        have hunf : resolveAliasFuel aliases (f + 1) id =
            resolveAliasFuel aliases f (aliasStep aliases id) := by
          simp [resolveAliasFuel, hid]
        rw [hunf]
        exact ih k2 (aliasStep aliases id) (Nat.succ_le_succ_iff.mp hk) hfix

theorem aliasStep_lt {aliases : List ℕ} (hwf : ∀ x ∈ aliases, x < aliases.length)
    {y : ℕ} (hy : y < aliases.length) : aliasStep aliases y < aliases.length := by
  apply hwf
  unfold aliasStep
  rw [List.getD_eq_getElem?_getD, List.getElem?_eq_getElem hy]
  exact List.getElem_mem hy

theorem alias_reach_le_length {aliases : List ℕ}
    (hwf : ∀ x ∈ aliases, x < aliases.length) {id : ℕ} (hid : id < aliases.length)
    (h : ∃ k, aliasStep aliases ((aliasStep aliases)^[k] id) = (aliasStep aliases)^[k] id) :
    ∃ k, k ≤ aliases.length ∧
      aliasStep aliases ((aliasStep aliases)^[k] id) = (aliasStep aliases)^[k] id := by
  classical
  have hlt : ∀ k, (aliasStep aliases)^[k] id < aliases.length := by
    intro k
    induction k with
    | zero => simpa using hid
    | succ k2 ih =>
      rw [Function.iterate_succ_apply']
      exact aliasStep_lt hwf ih
  set k0 := Nat.find h with hk0def
  have hk0 : aliasStep aliases ((aliasStep aliases)^[k0] id) = (aliasStep aliases)^[k0] id :=
    Nat.find_spec h
  refine ⟨k0, ?_, hk0⟩
  have key : ∀ a b : ℕ, a < b → b ≤ k0 →
      (aliasStep aliases)^[a] id = (aliasStep aliases)^[b] id → False := by
    intro a b hab hbk heq
    have h2 : (aliasStep aliases)^[(k0 - b) + a] id = (aliasStep aliases)^[k0] id := by
      rw [Function.iterate_add_apply, heq, ← Function.iterate_add_apply]
      congr 1
      omega
    have hfix2 : aliasStep aliases ((aliasStep aliases)^[(k0 - b) + a] id) =
        (aliasStep aliases)^[(k0 - b) + a] id := by
      rw [h2]
      exact hk0
    exact Nat.find_min h (by omega : (k0 - b) + a < k0) hfix2
  have hinj : Function.Injective
      (fun j : Fin (k0 + 1) =>
        (⟨(aliasStep aliases)^[j.val] id, hlt j.val⟩ : Fin aliases.length)) := by
    intro a b hab
    simp only [Fin.mk.injEq] at hab
    rcases Nat.lt_trichotomy a.val b.val with hl | he | hl
    · exact absurd hab (fun hq => key a.val b.val hl (Nat.lt_succ_iff.mp b.isLt) hq)
    · exact Fin.ext he
    · exact absurd hab.symm (fun hq => key b.val a.val hl (Nat.lt_succ_iff.mp a.isLt) hq)
  have hcard := Fintype.card_le_of_injective _ hinj
  simp only [Fintype.card_fin] at hcard
  omega

/-- C9: alias resolution is idempotent.  For every alias table whose entries
are in range and whose parent chains all reach a fixed point, and every
valid id, resolving the resolved id gives the same id. -/
theorem resolve_alias_idem (aliases : List ℕ) (id : ℕ)
    (hwf : ∀ x ∈ aliases, x < aliases.length)
    (hterm : ∀ i, i < aliases.length →
      ∃ k, aliasStep aliases ((aliasStep aliases)^[k] i) = (aliasStep aliases)^[k] i)
    (hid : id < aliases.length) :
    resolve_alias aliases (resolve_alias aliases id) = resolve_alias aliases id := by
  obtain ⟨k, hk, hfix⟩ := alias_reach_le_length hwf hid (hterm id hid)
  have hres := resolveAliasFuel_isFix aliases.length k id hk hfix
  exact resolveAliasFuel_of_fix hres aliases.length

theorem resolve_alias_idem_witness :
    resolve_alias [0, 1, 1, 2] (resolve_alias [0, 1, 1, 2] 3) =
      resolve_alias [0, 1, 1, 2] 3 := by
  apply resolve_alias_idem
  · decide
  · intro i hi
    simp only [List.length_cons, List.length_nil] at hi
    interval_cases i
    · exact ⟨0, by decide⟩
    · exact ⟨0, by decide⟩
    · exact ⟨1, by decide⟩
    · exact ⟨2, by decide⟩
  · decide

/- The per-pixel CR test, condition #2 (C1). -/

theorem is_cr_pixel_ex1_eval :
    is_cr_pixel ex1Img ex1Var 5 (1 / 2) (1 / 2) (1 / 4) 0 1 0 = some 0 := by
  norm_num [is_cr_pixel, crCond3Step, condition_3, ex1Img, ex1Var, Real.sqrt_one]

/-- C1 counterexample: with `min_sigma = 5 >= 0` and unit variance, the
pixel of `ex1Img` exceeds its NS neighbor mean by at least
`s = 5*sqrt(variance)` but does NOT exceed its WE mean by `s` (so it does
not exceed every one of the four means by `s`), and yet `is_cr_pixel`
classifies it as a CR. -/
theorem cr_cond2_counterexample :
    is_cr_pixel ex1Img ex1Var 5 (1 / 2) (1 / 2) (1 / 4) 0 1 0 = some 0 ∧
    ex1Img 0 0 <
      (ex1Img (-1) 0 + ex1Img 1 0) / 2 + ((5 : ℤ) : ℝ) * Real.sqrt (ex1Var 0 0) ∧
    (ex1Img 0 1 + ex1Img 0 (-1)) / 2 + ((5 : ℤ) : ℝ) * Real.sqrt (ex1Var 0 0) ≤
      ex1Img 0 0 :=
  ⟨is_cr_pixel_ex1_eval,
   by norm_num [ex1Img, ex1Var, Real.sqrt_one],
   by norm_num [ex1Img, ex1Var, Real.sqrt_one]⟩

/-- C1 as amended: with `min_sigma >= 0`, Condition #2 rejects the pixel
unless its value reaches AT LEAST ONE of the four two-sided neighbor means
plus `s = min_sigma * sqrt(variance)`; hence every pixel classified as a CR
exceeds at least one — not necessarily every one — of the four means by `s`. -/
theorem is_cr_pixel_exceeds_one_mean (img var : ℤ → ℤ → ℝ) (min_sigma : ℤ)
    (thres_h thres_v thres_d bkgd e_per_dn cond3_fac corr : ℝ)
    (hms : 0 ≤ min_sigma)
    (h : is_cr_pixel img var min_sigma thres_h thres_v thres_d bkgd e_per_dn cond3_fac =
      some corr) :
    (img 0 1 + img 0 (-1)) / 2 + (min_sigma : ℝ) * Real.sqrt (var 0 0) ≤ img 0 0 ∨
    (img (-1) 0 + img 1 0) / 2 + (min_sigma : ℝ) * Real.sqrt (var 0 0) ≤ img 0 0 ∨
    (img (-1) (-1) + img 1 1) / 2 + (min_sigma : ℝ) * Real.sqrt (var 0 0) ≤ img 0 0 ∨
    (img (-1) 1 + img 1 (-1)) / 2 + (min_sigma : ℝ) * Real.sqrt (var 0 0) ≤ img 0 0 := by
  by_contra hcon
  push_neg at hcon
  obtain ⟨h1, h2, h3, h4⟩ := hcon
  by_cases hv : img 0 0 < 0
  · simp only [is_cr_pixel] at h
    rw [if_pos hv] at h
    exact Option.noConfusion h
  · simp only [is_cr_pixel] at h
    rw [if_neg hv, if_neg (not_lt.mpr hms), if_pos ⟨h1, h2, h3, h4⟩] at h
    exact Option.noConfusion h

theorem is_cr_pixel_exceeds_one_mean_witness :
    (0 : ℤ) ≤ 5 ∧
    is_cr_pixel ex1Img ex1Var 5 (1 / 2) (1 / 2) (1 / 4) 0 1 0 = some 0 ∧
    ((ex1Img 0 1 + ex1Img 0 (-1)) / 2 + ((5 : ℤ) : ℝ) * Real.sqrt (ex1Var 0 0) ≤
        ex1Img 0 0 ∨
      (ex1Img (-1) 0 + ex1Img 1 0) / 2 + ((5 : ℤ) : ℝ) * Real.sqrt (ex1Var 0 0) ≤
        ex1Img 0 0 ∨
      (ex1Img (-1) (-1) + ex1Img 1 1) / 2 + ((5 : ℤ) : ℝ) * Real.sqrt (ex1Var 0 0) ≤
        ex1Img 0 0 ∨
      (ex1Img (-1) 1 + ex1Img 1 (-1)) / 2 + ((5 : ℤ) : ℝ) * Real.sqrt (ex1Var 0 0) ≤
        ex1Img 0 0) :=
  ⟨by norm_num, is_cr_pixel_ex1_eval,
   is_cr_pixel_exceeds_one_mean ex1Img ex1Var 5 (1 / 2) (1 / 2) (1 / 4) 0 1 0 0
     (by norm_num) is_cr_pixel_ex1_eval⟩
